import Mathlib

/-!
Verification of the Bezier-chain geometry and discretization engine of
heat-map-creator (src/utils/bezierChain.ts and the track utilities compiled
with it in that module).

Embedding conventions:
* JS numbers are modelled as exact rationals (ℚ).  `Math.sqrt` is not
  rational-valued, so every operation that transitively calls it takes an
  explicit `sqrtQ : ℚ → ℚ` parameter; theorems either hold for every such
  function or take the properties of the real square root they need
  (non-negativity, exactness on squares) as hypotheses.  `ratSqrt` below is
  a concrete executable function agreeing with `Math.sqrt` on perfect
  squares of rationals; it is used to evaluate witnesses and
  counterexamples, whose inputs are chosen so `Math.sqrt` is only ever
  applied to perfect squares.
* `Math.pow(d, 1.5)` is modelled as `d * sqrtQ d` and `Math.pow(l, 3)` as
  `l * l * l`.
* `generateId()` (utils/pathUtils.ts) returns a fresh opaque string never
  read back by any of the operations embedded here; it is modelled as `""`.
* `Date`-derived timestamp fields and other fields never read by any
  embedded operation are omitted from the records.
* In-source bounds guards such as `if (!current || !next) continue` protect
  against out-of-range array access; the embedded loops only access indices
  in range, where a JS array access is always defined, so list access is
  modelled with `getD` (total access with an irrelevant default).
* Where a claim's truth depends on floating-point rounding rather than on
  exact values — JS numbers are IEEE-754 binary64 — `roundToDouble` models
  one correctly rounded (round-to-nearest, ties-to-even) binary64 operation
  and an `FP`-suffixed variant of the affected source function threads it
  through each arithmetic step.  This matters for exactly one operation in
  this module: the speed-limit formula, see `calculateSpeedLimitFP`.
-/

namespace HeatMapCreator

/-- Plane point, types/spline.ts. -/
structure Point where
  x : ℚ
  y : ℚ
deriving DecidableEq, Repr

/-- A control point with optional absolute handles, types/spline.ts `BezierPoint`. -/
structure BezierPoint where
  x : ℚ
  y : ℚ
  handleIn : Option Point := none
  handleOut : Option Point := none
deriving DecidableEq, Repr

/-- Coordinates of a control point, forgetting the handles. -/
def toPoint (p : BezierPoint) : Point := ⟨p.x, p.y⟩

/-- Continuity tag on a segment, types/spline.ts. -/
inductive Continuity where
  | C0
  | C1
  | C2
deriving DecidableEq, Repr

/-- One cubic Bezier piece, types/spline.ts `BezierSegment`. -/
structure BezierSegment where
  id : String
  startPoint : BezierPoint
  endPoint : BezierPoint
  cp1 : Point
  cp2 : Point
  continuity : Continuity
deriving DecidableEq, Repr

/-- bezierChain.ts `pointsToBezierSegments`: converts the flat point list to
one segment per point, wrapping around from the last point to the first.
The source default for `continuity` is C1. -/
def pointsToBezierSegments (points : List BezierPoint) (continuity : Continuity) :
    List BezierSegment :=
  if points.length < 2 then []
  else
    (List.range points.length).map fun i =>
      let current := points.getD i ⟨0, 0, none, none⟩
      let next := points.getD ((i + 1) % points.length) ⟨0, 0, none, none⟩
      { id := ""
        startPoint := current
        endPoint := next
        cp1 := current.handleOut.getD (toPoint current)
        cp2 := next.handleIn.getD (toPoint next)
        continuity := if i = 0 then continuity else Continuity.C0 }

/-- bezierChain.ts `bezierSegmentsToPoints`: one point per segment start, plus
the final segment end point. -/
def bezierSegmentsToPoints (segments : List BezierSegment) : List BezierPoint :=
  if segments.length = 0 then []
  else
    (segments.map fun segment =>
      { x := segment.startPoint.x
        y := segment.startPoint.y
        handleIn := segment.startPoint.handleIn
        handleOut := some segment.cp1 })
    ++
    (match segments.getLast? with
     | some lastSegment =>
        [{ x := lastSegment.endPoint.x
           y := lastSegment.endPoint.y
           handleIn := some lastSegment.cp2
           handleOut := lastSegment.endPoint.handleOut }]
     | none => [])

/-- types/spline.ts `ContinuitySettings`. -/
structure ContinuitySettings where
  enforceC1 : Bool
  enforceC2 : Bool
  tolerance : ℚ
deriving DecidableEq, Repr

/-- bezierChain.ts `evaluateCubicBezier` (identical in both halves of the
module). -/
def evaluateCubicBezier (p0 cp1 cp2 p1 : Point) (t : ℚ) : Point :=
  let t2 := t * t
  let t3 := t2 * t
  let mt := 1 - t
  let mt2 := mt * mt
  let mt3 := mt2 * mt
  { x := mt3 * p0.x + 3 * mt2 * t * cp1.x + 3 * mt * t2 * cp2.x + t3 * p1.x
    y := mt3 * p0.y + 3 * mt2 * t * cp1.y + 3 * mt * t2 * cp2.y + t3 * p1.y }

/-- bezierChain.ts `calculateCurvatureAtT`.  `Math.pow(d, 1.5)` is modelled as
`d * sqrtQ d`. -/
def calculateCurvatureAtT (sqrtQ : ℚ → ℚ) (p0 cp1 cp2 p1 : Point) (t : ℚ) : ℚ :=
  let t2 := t * t
  let mt := 1 - t
  let mt2 := mt * mt
  let dx := -3 * mt2 * p0.x + 3 * mt2 * cp1.x - 6 * mt * t * cp1.x
    + 6 * mt * t * cp2.x - 3 * t2 * cp2.x + 3 * t2 * p1.x
  let dy := -3 * mt2 * p0.y + 3 * mt2 * cp1.y - 6 * mt * t * cp1.y
    + 6 * mt * t * cp2.y - 3 * t2 * cp2.y + 3 * t2 * p1.y
  let ddx := 6 * mt * p0.x - 12 * mt * cp1.x + 6 * mt * cp2.x
    + 6 * t * cp1.x - 12 * t * cp2.x + 6 * t * p1.x
  let ddy := 6 * mt * p0.y - 12 * mt * cp1.y + 6 * mt * cp2.y
    + 6 * t * cp1.y - 12 * t * cp2.y + 6 * t * p1.y
  let numerator := |dx * ddy - dy * ddx|
  let d := dx * dx + dy * dy
  let denominator := d * sqrtQ d
  if denominator = 0 then 0 else numerator / denominator

/-- bezierChain.ts `calculateSegmentCurvature`: average of 11 curvature
samples (samples = 10, loop inclusive). -/
def calculateSegmentCurvature (sqrtQ : ℚ → ℚ) (segment : BezierSegment) : ℚ :=
  ((List.range 11).foldl
    (fun acc i =>
      acc + calculateCurvatureAtT sqrtQ (toPoint segment.startPoint) segment.cp1
        segment.cp2 (toPoint segment.endPoint) ((i : ℚ) / 10))
    0) / 11

/-- bezierChain.ts `adjustSegmentForCurvature`: the in-place control-point
nudge, modelled as returning the updated segment value. -/
def adjustSegmentForCurvature (sqrtQ : ℚ → ℚ) (segment : BezierSegment)
    (targetCurvature : ℚ) : BezierSegment :=
  let currentCurvature := calculateSegmentCurvature sqrtQ segment
  let adjustment := (targetCurvature - currentCurvature) * (1 / 10)
  let centerX := (segment.startPoint.x + segment.endPoint.x) / 2
  let centerY := (segment.startPoint.y + segment.endPoint.y) / 2
  { segment with
    cp1 := { x := segment.cp1.x + adjustment * (segment.cp1.x - centerX)
             y := segment.cp1.y + adjustment * (segment.cp1.y - centerY) }
    cp2 := { x := segment.cp2.x + adjustment * (segment.cp2.x - centerX)
             y := segment.cp2.y + adjustment * (segment.cp2.y - centerY) } }

instance : Inhabited BezierSegment :=
  ⟨{ id := "", startPoint := ⟨0, 0, none, none⟩, endPoint := ⟨0, 0, none, none⟩,
     cp1 := ⟨0, 0⟩, cp2 := ⟨0, 0⟩, continuity := Continuity.C0 }⟩

/-- One iteration of the `enforceContinuity` loop.  The source mutates the
objects of the (shallowly copied) array in place; the array of current object
states is threaded explicitly, and the write `next.cp2 = ...` becomes a
`List.set` at index `(i+1) % n`. -/
def enforceContinuityStep (sqrtQ : ℚ → ℚ) (settings : ContinuitySettings)
    (state : List BezierSegment) (i : Nat) : List BezierSegment :=
  let n := state.length
  let j := (i + 1) % n
  let current := state.getD i default
  let next := state.getD j default
  let state1 :=
    if settings.enforceC1 then
      let t1x := current.cp1.x - current.endPoint.x
      let t1y := current.cp1.y - current.endPoint.y
      let t2x := next.startPoint.x - next.cp2.x
      let t2y := next.startPoint.y - next.cp2.y
      let tangentLength := sqrtQ (t1x * t1x + t1y * t1y)
      if tangentLength > 0 then
        let scale := sqrtQ (t2x * t2x + t2y * t2y) / tangentLength
        state.set j
          { next with cp2 := { x := next.startPoint.x - t1x * scale
                               y := next.startPoint.y - t1y * scale } }
      else state
    else state
  if settings.enforceC2 then
    let current1 := state1.getD i default
    let next1 := state1.getD j default
    let curvature1 := calculateSegmentCurvature sqrtQ current1
    let curvature2 := calculateSegmentCurvature sqrtQ next1
    if |curvature1 - curvature2| > settings.tolerance then
      state1.set j (adjustSegmentForCurvature sqrtQ next1 ((curvature1 + curvature2) / 2))
    else state1
  else state1

/-- bezierChain.ts `enforceContinuity`.  The value returned is the final state
of the segment objects; because the source only shallow-copies the array,
these are the caller's own (mutated) segment objects. -/
def enforceContinuity (sqrtQ : ℚ → ℚ) (segments : List BezierSegment)
    (settings : ContinuitySettings) : List BezierSegment :=
  if segments.length < 2 then segments
  else (List.range segments.length).foldl (enforceContinuityStep sqrtQ settings) segments

/-- bezierChain.ts `calculateSegmentArcLength`: polyline approximation at
`samples` evenly spaced parameter values (source default 100). -/
def calculateSegmentArcLength (sqrtQ : ℚ → ℚ) (segment : BezierSegment)
    (samples : Nat) : ℚ :=
  ((List.range samples).foldl
    (fun (acc : ℚ × Point) (k : Nat) =>
      let i : Nat := k + 1
      let t := (i : ℚ) / (samples : ℚ)
      let point := evaluateCubicBezier (toPoint segment.startPoint) segment.cp1
        segment.cp2 (toPoint segment.endPoint) t
      let dx := point.x - acc.2.x
      let dy := point.y - acc.2.y
      (acc.1 + sqrtQ (dx * dx + dy * dy), point))
    (0, toPoint segment.startPoint)).1

/-- bezierChain.ts `calculateChainArcLength`: sum of the per-segment lengths. -/
def calculateChainArcLength (sqrtQ : ℚ → ℚ) (segments : List BezierSegment)
    (samples : Nat) : ℚ :=
  segments.foldl (fun totalLength segment =>
    totalLength + calculateSegmentArcLength sqrtQ segment samples) 0

/-- Sample-walking loop of bezierChain.ts `findTForDistanceInSegment`;
`remaining` is the number of loop iterations left (the loop runs `i` from 1 to
`samples` and returns 1 when it falls through). -/
def findTForDistanceInSegmentGo (sqrtQ : ℚ → ℚ) (segment : BezierSegment)
    (targetDistance : ℚ) (samples : Nat) :
    Nat → Nat → ℚ → Point → ℚ
  | 0, _, _, _ => 1
  | remaining + 1, i, accumulatedDistance, prevPoint =>
    let t := (i : ℚ) / (samples : ℚ)
    let point := evaluateCubicBezier (toPoint segment.startPoint) segment.cp1
      segment.cp2 (toPoint segment.endPoint) t
    let dx := point.x - prevPoint.x
    let dy := point.y - prevPoint.y
    let segmentLength := sqrtQ (dx * dx + dy * dy)
    if accumulatedDistance + segmentLength ≥ targetDistance then
      let ratio := (targetDistance - accumulatedDistance) / segmentLength
      ((i : ℚ) - 1) / (samples : ℚ) + ratio / (samples : ℚ)
    else
      findTForDistanceInSegmentGo sqrtQ segment targetDistance samples
        remaining (i + 1) (accumulatedDistance + segmentLength) point

/-- bezierChain.ts `findTForDistanceInSegment` (source default samples 100). -/
def findTForDistanceInSegment (sqrtQ : ℚ → ℚ) (segment : BezierSegment)
    (targetDistance : ℚ) (samples : Nat) : ℚ :=
  findTForDistanceInSegmentGo sqrtQ segment targetDistance samples samples 1 0
    (toPoint segment.startPoint)

/-- Segment-walking loop of bezierChain.ts `findTForDistance`; falls back to
the final segment at `t = 1` when the accumulated length never reaches the
target. -/
def findTForDistanceGo (sqrtQ : ℚ → ℚ) (allLen : Nat) (targetDistance : ℚ)
    (samples : Nat) : List BezierSegment → Nat → ℚ → Nat × ℚ
  | [], _, _ => (allLen - 1, 1)
  | segment :: rest, i, accumulatedDistance =>
    let segmentLength := calculateSegmentArcLength sqrtQ segment samples
    if accumulatedDistance + segmentLength ≥ targetDistance then
      (i, findTForDistanceInSegment sqrtQ segment
        (targetDistance - accumulatedDistance) samples)
    else
      findTForDistanceGo sqrtQ allLen targetDistance samples rest (i + 1)
        (accumulatedDistance + segmentLength)

/-- bezierChain.ts `findTForDistance`, returning `(segmentIndex, t)`. -/
def findTForDistance (sqrtQ : ℚ → ℚ) (segments : List BezierSegment)
    (targetDistance : ℚ) (samples : Nat) : Nat × ℚ :=
  findTForDistanceGo sqrtQ segments.length targetDistance samples segments 0 0

/-- bezierChain.ts `evaluateChainAtT` with its `{x: 0, y: 0}` fallback for an
out-of-range segment index. -/
def evaluateChainAtT (segments : List BezierSegment) (segmentIndex : Nat)
    (t : ℚ) : Point :=
  match segments[segmentIndex]? with
  | none => ⟨0, 0⟩
  | some segment =>
    evaluateCubicBezier (toPoint segment.startPoint) segment.cp1 segment.cp2
      (toPoint segment.endPoint) t

/-- First derivative of the cubic at `t`; bezierChain.ts
`calculateBezierTangent`, also inlined in `calculateChainTangent`. -/
def calculateBezierTangent (p0 cp1 cp2 p1 : Point) (t : ℚ) : Point :=
  let t2 := t * t
  let mt := 1 - t
  let mt2 := mt * mt
  { x := -3 * mt2 * p0.x + 3 * mt2 * cp1.x - 6 * mt * t * cp1.x
      + 6 * mt * t * cp2.x - 3 * t2 * cp2.x + 3 * t2 * p1.x
    y := -3 * mt2 * p0.y + 3 * mt2 * cp1.y - 6 * mt * t * cp1.y
      + 6 * mt * t * cp2.y - 3 * t2 * cp2.y + 3 * t2 * p1.y }

/-- bezierChain.ts `calculateChainTangent` with its `{x: 0, y: 0}` fallback. -/
def calculateChainTangent (segments : List BezierSegment) (segmentIndex : Nat)
    (t : ℚ) : Point :=
  match segments[segmentIndex]? with
  | none => ⟨0, 0⟩
  | some segment =>
    calculateBezierTangent (toPoint segment.startPoint) segment.cp1 segment.cp2
      (toPoint segment.endPoint) t

/-- bezierChain.ts `calculateCurvature` (discretizer half of the module):
returns 0 on a zero-length tangent, otherwise |cross| / tangentLength³. -/
def calculateCurvature (sqrtQ : ℚ → ℚ) (p0 cp1 cp2 p1 : Point) (t : ℚ) : ℚ :=
  let tangent := calculateBezierTangent p0 cp1 cp2 p1 t
  let tangentLength := sqrtQ (tangent.x * tangent.x + tangent.y * tangent.y)
  if tangentLength = 0 then 0
  else
    -- the source also binds an unused t*t here
    let mt := 1 - t
    let secondDeriv : Point :=
      { x := 6 * mt * p0.x - 12 * mt * cp1.x + 6 * mt * cp2.x
          + 6 * t * cp1.x - 12 * t * cp2.x + 6 * t * p1.x
        y := 6 * mt * p0.y - 12 * mt * cp1.y + 6 * mt * cp2.y
          + 6 * t * cp1.y - 12 * t * cp2.y + 6 * t * p1.y }
    let crossProduct := tangent.x * secondDeriv.y - tangent.y * secondDeriv.x
    |crossProduct| / (tangentLength * tangentLength * tangentLength)

/-- bezierChain.ts `calculateCurvatureAtChainPosition` with its 0 fallback. -/
def calculateCurvatureAtChainPosition (sqrtQ : ℚ → ℚ)
    (segments : List BezierSegment) (segmentIndex : Nat) (t : ℚ) : ℚ :=
  match segments[segmentIndex]? with
  | none => 0
  | some segment =>
    calculateCurvature sqrtQ (toPoint segment.startPoint) segment.cp1
      segment.cp2 (toPoint segment.endPoint) t

/-- Spot type, types/spline.ts: "race-line" | "outer" | "inner". -/
inductive SpotType where
  | raceLine
  | outer
  | inner
deriving DecidableEq, Repr

/-- types/spline.ts `Spot`. -/
structure Spot where
  id : String
  position : Point
  type : SpotType
  isOccupied : Bool
  spotIndex : Nat
  isBlocking : Bool
  slipstreamValue : ℚ
deriving DecidableEq, Repr

/-- The metadata record built by `discretizePathToSpaces` (the optional
fields it never sets are omitted). -/
structure SpaceMetadata where
  isCornerLine : Bool
  isStartFinish : Bool
  isStraight : Bool
  curvature : ℚ
  trackWidth : ℚ
  surface : String
deriving DecidableEq, Repr

/-- types/spline.ts `Space`. -/
structure Space where
  id : String
  index : Nat
  position : Point
  spots : List Spot
  metadata : SpaceMetadata
deriving DecidableEq, Repr

instance : Inhabited Space :=
  ⟨{ id := "", index := 0, position := ⟨0, 0⟩, spots := [],
     metadata := { isCornerLine := false, isStartFinish := false,
                   isStraight := false, curvature := 0, trackWidth := 0,
                   surface := "" } }⟩

/-- bezierChain.ts `generateSpotsForSpace`: returns `[]` on a zero-length
tangent, otherwise `spotCount` spots across the width; the spot at index
`floor(spotCount/2)` is the race line, the extreme spots are blocking outer
spots, the rest are inner. -/
def generateSpotsForSpace (sqrtQ : ℚ → ℚ) (centerPosition tangent : Point)
    (trackWidth : ℚ) (spotCount : Nat) : List Spot :=
  let tangentLength := sqrtQ (tangent.x * tangent.x + tangent.y * tangent.y)
  if tangentLength = 0 then []
  else
    let nx := tangent.x / tangentLength
    let ny := tangent.y / tangentLength
    let perpX := -ny
    let perpY := nx
    let spotSpacing := trackWidth / ((spotCount : ℚ) - 1)
    (List.range spotCount).map fun (i : Nat) =>
      let offset := ((i : ℚ) - ((spotCount : ℚ) - 1) / 2) * spotSpacing
      let spotPosition : Point :=
        { x := centerPosition.x + perpX * offset
          y := centerPosition.y + perpY * offset }
      if i = spotCount / 2 then
        { id := "", position := spotPosition, type := SpotType.raceLine,
          isOccupied := false, spotIndex := i, isBlocking := false,
          slipstreamValue := 0 }
      else if i = 0 ∨ i = spotCount - 1 then
        { id := "", position := spotPosition, type := SpotType.outer,
          isOccupied := false, spotIndex := i, isBlocking := true,
          slipstreamValue := 2 }
      else
        { id := "", position := spotPosition, type := SpotType.inner,
          isOccupied := false, spotIndex := i, isBlocking := false,
          slipstreamValue := 1 }

/-- bezierChain.ts `discretizePathToSpaces` (source defaults: trackWidth 100,
spotCount 5; arc-length and inverse lookups use their default 100 samples). -/
def discretizePathToSpaces (sqrtQ : ℚ → ℚ) (bezierSegments : List BezierSegment)
    (targetSpacesPerLap : Nat) (trackWidth : ℚ) (spotCount : Nat) : List Space :=
  if bezierSegments.length = 0 then []
  else
    let totalLength := calculateChainArcLength sqrtQ bezierSegments 100
    let spaceLength := totalLength / (targetSpacesPerLap : ℚ)
    (List.range targetSpacesPerLap).map fun (spaceIndex : Nat) =>
      let targetDistance := (spaceIndex : ℚ) * spaceLength
      let st := findTForDistance sqrtQ bezierSegments targetDistance 100
      let position := evaluateChainAtT bezierSegments st.1 st.2
      let tangent := calculateChainTangent bezierSegments st.1 st.2
      let curvature := calculateCurvatureAtChainPosition sqrtQ bezierSegments st.1 st.2
      let spots := generateSpotsForSpace sqrtQ position tangent trackWidth spotCount
      { id := ""
        index := spaceIndex
        position := position
        spots := spots
        metadata := { isCornerLine := false
                      isStartFinish := false
                      isStraight := curvature < 1 / 100
                      curvature := curvature
                      trackWidth := trackWidth
                      surface := "asphalt" } }

/-- Corner type, types/spline.ts. -/
inductive CornerType where
  | slow
  | medium
  | fast
  | chicane
deriving DecidableEq, Repr

/-- types/spline.ts `Corner`. -/
structure Corner where
  id : String
  spaceIndex : Nat
  speedLimit : ℚ
  position : Point
  isAutoSuggested : Bool
  innerSide : String
  cornerType : CornerType
  difficulty : ℚ
  suggestedGear : ℚ
  heatPenalty : ℚ
  entryAngle : ℚ
  exitAngle : ℚ
  radius : ℚ
deriving DecidableEq, Repr

instance : Inhabited Corner :=
  ⟨{ id := "", spaceIndex := 0, speedLimit := 0, position := ⟨0, 0⟩,
     isAutoSuggested := false, innerSide := "", cornerType := CornerType.slow,
     difficulty := 0, suggestedGear := 0, heatPenalty := 0, entryAngle := 0,
     exitAngle := 0, radius := 0 }⟩

/-- bezierChain.ts `determineCornerType`: curvature bands. -/
def determineCornerType (curvature : ℚ) : CornerType :=
  if curvature > 3 / 10 then CornerType.slow
  else if curvature > 15 / 100 then CornerType.medium
  else if curvature > 5 / 100 then CornerType.fast
  else CornerType.chicane

/-- bezierChain.ts `calculateSpeedLimit`: type-specific linear formula in the
curvature, floor-clamped from below.  This exact-rational model is faithful
except for positive curvatures below half an ulp of 6, where the source's
double subtraction rounds up to exactly 6; `calculateSpeedLimitFP` below
models that binary64 behavior. -/
def calculateSpeedLimit (curvature : ℚ) (cornerType : CornerType) : ℚ :=
  match cornerType with
  | CornerType.slow => max 1 ((⌊(6 : ℚ) - curvature * 20⌋ : ℤ) : ℚ)
  | CornerType.medium => max 2 ((⌊(6 : ℚ) - curvature * 15⌋ : ℤ) : ℚ)
  | CornerType.fast => max 3 ((⌊(6 : ℚ) - curvature * 10⌋ : ℤ) : ℚ)
  | CornerType.chicane => max 2 ((⌊(6 : ℚ) - curvature * 12⌋ : ℤ) : ℚ)

/-- bezierChain.ts `calculateCornerDifficulty`. -/
def calculateCornerDifficulty (curvature speedLimit : ℚ) : ℚ :=
  let baseDifficulty := min 10 (max 1 (curvature * 30))
  let speedPenalty := max 0 ((6 - speedLimit) * (1 / 2))
  min 10 (baseDifficulty + speedPenalty)

/-- bezierChain.ts `calculateSuggestedGear`. -/
def calculateSuggestedGear (speedLimit : ℚ) : ℚ :=
  max 1 (min 6 speedLimit)

/-- bezierChain.ts `calculateHeatPenalty`. -/
def calculateHeatPenalty (speedLimit : ℚ) : ℚ :=
  max 1 (6 - speedLimit)

/-- bezierChain.ts `calculateCornerRadius`. -/
def calculateCornerRadius (curvature : ℚ) : ℚ :=
  if curvature > 0 then 1 / curvature else 1000

/-- The body of the greedy acceptance loop of `autoSuggestCorners`, acting on
the pair (corners so far, used space indices so far). -/
def autoSuggestCornersStep (minCornerSpacing : ℚ)
    (acc : List Corner × List Nat) (cand : Space × ℚ) : List Corner × List Nat :=
  let tooClose := acc.2.any fun usedIndex =>
    |((cand.1.index : ℚ)) - ((usedIndex : ℚ))| < minCornerSpacing
  if tooClose then acc
  else
    let curvature := cand.2
    let cornerType := determineCornerType curvature
    let speedLimit := calculateSpeedLimit curvature cornerType
    let difficulty := calculateCornerDifficulty curvature speedLimit
    (acc.1 ++
      [{ id := ""
         spaceIndex := cand.1.index
         speedLimit := speedLimit
         position := cand.1.position
         isAutoSuggested := true
         innerSide := "left"
         cornerType := cornerType
         difficulty := difficulty
         suggestedGear := calculateSuggestedGear speedLimit
         heatPenalty := calculateHeatPenalty speedLimit
         entryAngle := 0
         exitAngle := 0
         radius := calculateCornerRadius curvature }],
     acc.2 ++ [cand.1.index])

/-- Stable insertion into a list sorted by descending curvature: the new
element goes after all elements of greater or equal curvature. -/
def insertByCurvatureDesc (cand : Space × ℚ) : List (Space × ℚ) → List (Space × ℚ)
  | [] => [cand]
  | head :: tail =>
    if cand.2 ≤ head.2 then head :: insertByCurvatureDesc cand tail
    else cand :: head :: tail

/-- Stable descending sort by curvature.  JS `Array.prototype.sort` with the
comparator `(a, b) => b.curvature - a.curvature` is the stable descending
sort by curvature; left-to-right insertion with `insertByCurvatureDesc`
computes the same list. -/
def sortByCurvatureDesc (l : List (Space × ℚ)) : List (Space × ℚ) :=
  l.foldl (fun acc cand => insertByCurvatureDesc cand acc) []

/-- bezierChain.ts `autoSuggestCorners`: filter spaces above the curvature
threshold, sort descending by curvature, then greedily accept candidates no
closer than `minCornerSpacing` to an already used space index. -/
def autoSuggestCorners (spaces : List Space) (curvatureThreshold : ℚ)
    (minCornerSpacing : ℚ) : List Corner :=
  let highCurvatureSpaces := spaces.filterMap fun space =>
    if space.metadata.curvature > curvatureThreshold then
      some (space, space.metadata.curvature)
    else none
  let sorted := sortByCurvatureDesc highCurvatureSpaces
  (sorted.foldl (autoSuggestCornersStep minCornerSpacing) ([], [])).1

/-- types/spline.ts `SplinePath` (color and stroke width kept; the legacy
`points` mirror is optional in the source). -/
structure SplinePath where
  id : String
  segments : List BezierSegment
  color : String
  strokeWidth : ℚ
  closed : Bool
  points : Option (List BezierPoint)
deriving DecidableEq, Repr

/-- bezierChain.ts `createSplinePathFromSegments` (source defaults:
color "#3182ce", strokeWidth 3, closed true). -/
def createSplinePathFromSegments (segments : List BezierSegment)
    (color : String) (strokeWidth : ℚ) (closed : Bool) : SplinePath :=
  { id := ""
    segments := segments
    color := color
    strokeWidth := strokeWidth
    closed := closed
    points := some (bezierSegmentsToPoints segments) }

/-- types/spline.ts `TrackMetadata`, restricted to the fields the embedded
operations read or set to non-constant values; timestamps, board statistics
and descriptive strings are never read back by any embedded operation. -/
structure TrackMetadata where
  name : String
  laps : Nat
  startFinishSpaceIndex : Nat
  version : String
deriving DecidableEq, Repr

/-- bezierChain.ts `createDefaultTrackMetadata` (Date-derived fields and
never-read board statistics omitted). -/
def createDefaultTrackMetadata : TrackMetadata :=
  { name := "Untitled Track"
    laps := 3
    startFinishSpaceIndex := 0
    version := "1.0.0" }

/-- types/spline.ts `TrackData`, restricted to the fields `validateTrackData`
reads. -/
structure TrackData where
  id : String
  splinePath : SplinePath
  spaces : List Space
  corners : List Corner
  metadata : TrackMetadata
deriving DecidableEq, Repr

/-- Axis-aligned bounding box as computed by bezierChain.ts
`calculateBoundingBox`. -/
structure BoundingBox where
  minX : ℚ
  maxX : ℚ
  minY : ℚ
  maxY : ℚ
deriving DecidableEq, Repr

/-- bezierChain.ts `calculateBoundingBox`: min/max over the four control
points of the segment. -/
def calculateBoundingBox (segment : BezierSegment) : BoundingBox :=
  { minX := min (min (min segment.startPoint.x segment.cp1.x) segment.cp2.x)
      segment.endPoint.x
    maxX := max (max (max segment.startPoint.x segment.cp1.x) segment.cp2.x)
      segment.endPoint.x
    minY := min (min (min segment.startPoint.y segment.cp1.y) segment.cp2.y)
      segment.endPoint.y
    maxY := max (max (max segment.startPoint.y segment.cp1.y) segment.cp2.y)
      segment.endPoint.y }

/-- bezierChain.ts `segmentsIntersect`: bounding-box overlap test. -/
def segmentsIntersect (seg1 seg2 : BezierSegment) : Bool :=
  let bbox1 := calculateBoundingBox seg1
  let bbox2 := calculateBoundingBox seg2
  ¬(bbox1.maxX < bbox2.minX ∨ bbox1.minX > bbox2.maxX ∨
    bbox1.maxY < bbox2.minY ∨ bbox1.minY > bbox2.maxY)

/-- bezierChain.ts `checkForSelfIntersections`: true when some pair of
segments at index distance ≥ 2 has overlapping bounding boxes. -/
def checkForSelfIntersections (segments : List BezierSegment) : Bool :=
  (List.range segments.length).any fun i =>
    (List.range segments.length).any fun j =>
      decide (i + 2 ≤ j) &&
        match segments[i]?, segments[j]? with
        | some seg1, some seg2 => segmentsIntersect seg1 seg2
        | _, _ => false

/-- Error strings of a single corner check inside `validateTrackData`. -/
def cornerErrors (spacesLength : Nat) (corner : Corner) : List String :=
  let idx := corner.spaceIndex
  let sl := corner.speedLimit
  (if corner.spaceIndex ≥ spacesLength then
    [s!"Corner at space {idx} is out of bounds"]
  else []) ++
  (if corner.speedLimit < 1 ∨ corner.speedLimit > 6 then
    [s!"Corner at space {idx} has invalid speed limit: {sl}"]
  else [])

/-- Error strings of a single space check inside `validateTrackData`. -/
def spaceErrors (space : Space) : List String :=
  let idx := space.index
  (if space.spots.length = 0 then [s!"Space {idx} has no spots"] else []) ++
  (if (space.spots.filter fun spot => spot.type = SpotType.raceLine).length ≠ 1 then
    [s!"Space {idx} must have exactly one race line spot"]
  else [])

/-- bezierChain.ts `validateTrackData`: collects all structural errors into a
list, in source push order. -/
def validateTrackData (trackData : TrackData) : List String :=
  (if trackData.splinePath.closed = false then ["Track must form a closed loop"] else []) ++
  (if trackData.spaces.length = 0 then ["Track must have at least one space"] else []) ++
  (if trackData.metadata.startFinishSpaceIndex ≥ trackData.spaces.length then
    ["Start/Finish line must be within track bounds"]
  else []) ++
  (trackData.corners.map (cornerErrors trackData.spaces.length)).flatten ++
  (trackData.spaces.map spaceErrors).flatten ++
  (if trackData.splinePath.segments.length < 3 then
    ["Track must have at least 3 Bezier segments"]
  else []) ++
  (if checkForSelfIntersections trackData.splinePath.segments then
    ["Track has self-intersections"]
  else [])

/-- Assembly of a fresh TrackData as performed by the editor
(SplineEditor.tsx) and described in the spec: spaces from
`discretizePathToSpaces`, corners from `autoSuggestCorners` on those spaces,
a closed spline path from `createSplinePathFromSegments`, and default
metadata. -/
def assembleTrackData (sqrtQ : ℚ → ℚ) (segments : List BezierSegment)
    (targetSpacesPerLap : Nat) (trackWidth : ℚ) (spotCount : Nat)
    (curvatureThreshold minCornerSpacing : ℚ) : TrackData :=
  let spaces := discretizePathToSpaces sqrtQ segments targetSpacesPerLap
    trackWidth spotCount
  { id := ""
    splinePath := createSplinePathFromSegments segments "#3182ce" 3 true
    spaces := spaces
    corners := autoSuggestCorners spaces curvatureThreshold minCornerSpacing
    metadata := createDefaultTrackMetadata }

/-- Newton iteration for the integer square root, with explicit fuel so that
it is structurally recursive. -/
def natSqrtGo (n : Nat) : Nat → Nat → Nat
  | x, 0 => x
  | x, fuel + 1 =>
    let y := (x + n / x) / 2
    if y < x then natSqrtGo n y fuel else x

/-- Integer (floor) square root by Newton iteration. -/
def natSqrt (n : Nat) : Nat :=
  if n ≤ 1 then n else natSqrtGo n n n

/-- Exact rational square root: agrees with `Math.sqrt` whenever the argument
is the square of a rational (in particular at 0), and is non-negative
everywhere, like `Math.sqrt` on its non-NaN range. -/
def ratSqrt (q : ℚ) : ℚ :=
  if q < 0 then 0
  else
    let n := q.num.toNat
    let d := q.den
    let sn := natSqrt n
    let sd := natSqrt d
    if sn * sn = n ∧ sd * sd = d then (sn : ℚ) / (sd : ℚ) else 0

theorem ratSqrt_nonneg (q : ℚ) : 0 ≤ q → 0 ≤ ratSqrt q := by
  intro h
  unfold ratSqrt
  split
  · exact le_refl 0
  · simp only
    split
    · positivity
    · exact le_refl 0

/-! ### IEEE-754 binary64 rounding

JS arithmetic is binary64: each `+`, `-`, `*`, `/` returns the rounding
(round to nearest, ties to even) of the exact result.  The exact-rational
embedding above coincides with that semantics on every evaluation performed
in this file except one: for a positive curvature below half an ulp of 6,
the source's `6 - curvature * k` rounds up to exactly 6 while the exact
value stays below 6.  The following model of one correctly rounded binary64
operation (for values in the normal double range, where everything in this
file lives) makes that divergence statable. -/

/-- Power of two as a rational, by structural recursion. -/
def qpow2 : Nat → ℚ
  | 0 => 1
  | n + 1 => 2 * qpow2 n

/-- Fuel-based floor of log2 on positive naturals. -/
def natLog2Go : Nat → Nat → Nat
  | 0, _ => 0
  | fuel + 1, n => if n ≤ 1 then 0 else natLog2Go fuel (n / 2) + 1

/-- Exponent search for a positive rational below 1: doubles until reaching
[1, 2), returning the (negative) exponent. -/
def qLog2NegGo : Nat → ℚ → ℤ → ℤ
  | 0, _, acc => acc
  | fuel + 1, a, acc => if 1 ≤ a then acc else qLog2NegGo fuel (a * 2) (acc - 1)

/-- Greatest e with 2^e ≤ a, for a positive rational a in the double range
(the fuel 1100 covers every binary64 exponent). -/
def qLog2 (a : ℚ) : ℤ :=
  if 1 ≤ a then (natLog2Go ⌊a⌋.toNat ⌊a⌋.toNat : ℤ)
  else qLog2NegGo 1100 a 0

/-- Round a rational to the nearest integer, ties to even. -/
def roundHalfEven (q : ℚ) : ℤ :=
  let fl := ⌊q⌋
  let fr := q - (fl : ℚ)
  if fr < 1 / 2 then fl
  else if fr > 1 / 2 then fl + 1
  else if fl % 2 = 0 then fl else fl + 1

/-- IEEE-754 binary64 rounding (round to nearest, ties to even) of an exact
rational value: scale the magnitude to a 53-bit mantissa in [2^52, 2^53),
round it to an integer with ties to even, and scale back.  Correct for
values in the normal double range, which covers every value this file
evaluates it on. -/
def roundToDouble (q : ℚ) : ℚ :=
  if q = 0 then 0
  else
    let a := |q|
    let e := qLog2 a
    let m := match 52 - e with
      | Int.ofNat k => a * qpow2 k
      | Int.negSucc k => a / qpow2 (k + 1)
    let mr := roundHalfEven m
    let back := match (e - 52 : ℤ) with
      | Int.ofNat k => (mr : ℚ) * qpow2 k
      | Int.negSucc k => (mr : ℚ) / qpow2 (k + 1)
    if q < 0 then -back else back

/-- bezierChain.ts `calculateSpeedLimit` under the source's own binary64
arithmetic: `curvature * k` and `6 - ...` each produce the correctly
rounded double of the exact result (`Math.floor` and `Math.max` are exact
on the values involved).  It coincides with the exact-rational
`calculateSpeedLimit` wherever rounding does not decide the floor; it
differs exactly for positive curvatures below half an ulp of 6, where the
subtraction rounds up to exactly 6 and the speed limit becomes 6. -/
def calculateSpeedLimitFP (curvature : ℚ) (cornerType : CornerType) : ℚ :=
  match cornerType with
  | CornerType.slow =>
      max 1 ((⌊roundToDouble ((6 : ℚ) - roundToDouble (curvature * 20))⌋ : ℤ) : ℚ)
  | CornerType.medium =>
      max 2 ((⌊roundToDouble ((6 : ℚ) - roundToDouble (curvature * 15))⌋ : ℤ) : ℚ)
  | CornerType.fast =>
      max 3 ((⌊roundToDouble ((6 : ℚ) - roundToDouble (curvature * 10))⌋ : ℤ) : ℚ)
  | CornerType.chicane =>
      max 2 ((⌊roundToDouble ((6 : ℚ) - roundToDouble (curvature * 12))⌋ : ℤ) : ℚ)

/-! ### Geometric vocabulary for claim hypotheses

The spec speaks of "valid closed, non-self-intersecting" chains.  The
following predicates state those hypotheses for chains of straight segments
(with absent handles `pointsToBezierSegments` yields `cp1 = start`,
`cp2 = end`, a locally linear piece whose image is the straight segment
between its endpoints). -/

/-- Cross-product orientation of the triple (a, b, c). -/
def orient (a b c : Point) : ℚ :=
  (b.x - a.x) * (c.y - a.y) - (b.y - a.y) * (c.x - a.x)

/-- `t` lies between `a` and `b` (in either order). -/
def betweenQ (a b t : ℚ) : Prop := (a ≤ t ∧ t ≤ b) ∨ (b ≤ t ∧ t ≤ a)

/-- `p` lies on the closed straight segment from `a` to `b`. -/
def onSegmentPt (a b p : Point) : Prop :=
  orient a b p = 0 ∧ betweenQ a.x b.x p.x ∧ betweenQ a.y b.y p.y

/-- The chain is closed: every segment ends where the (cyclically) next one
starts. -/
def chainClosed (segments : List BezierSegment) : Prop :=
  ∀ i, i < segments.length →
    toPoint (segments.getD i default).endPoint =
      toPoint (segments.getD ((i + 1) % segments.length) default).startPoint

/-- A chain of straight segments is non-self-intersecting when two distinct
segments meet only in a shared chain vertex. -/
def straightChainNonSelfIntersecting (segments : List BezierSegment) : Prop :=
  ∀ i j, i < j → j < segments.length →
    ∀ p : Point,
      onSegmentPt (toPoint (segments.getD i default).startPoint)
        (toPoint (segments.getD i default).endPoint) p →
      onSegmentPt (toPoint (segments.getD j default).startPoint)
        (toPoint (segments.getD j default).endPoint) p →
      p = toPoint (segments.getD j default).startPoint ∨
        p = toPoint (segments.getD i default).startPoint

/-- Circular distance of two space indices on the ring of `n` spaces, as the
spec phrases corner spacing: the smaller of the forward and backward
distances. -/
def circularSpaceDistance (n i j : Nat) : Nat :=
  let d := ((i : ℤ) - (j : ℤ)).natAbs
  min d (n - d)

/-! ### Concrete inputs used by witnesses and counterexamples -/

/-- Handle-free control point. -/
def bp (x y : ℚ) : BezierPoint := ⟨x, y, none, none⟩

/-- Fully degenerate segment: all four control points at the origin. -/
def zeroSeg : BezierSegment :=
  { id := "", startPoint := bp 0 0, endPoint := bp 0 0, cp1 := ⟨0, 0⟩,
    cp2 := ⟨0, 0⟩, continuity := Continuity.C1 }

/-- An "out-and-back" segment: starts and ends at the origin with both
control points at (1, 0).  Its velocity 3(1-2t)(1, 0) vanishes at t = 1/2,
and every square root taken while discretizing it is a square of a rational,
so `ratSqrt` agrees with `Math.sqrt` throughout. -/
def outBackSeg : BezierSegment :=
  { id := "", startPoint := bp 0 0, endPoint := bp 0 0, cp1 := ⟨1, 0⟩,
    cp2 := ⟨1, 0⟩, continuity := Continuity.C1 }

/-- Vertices of a 3-4-5 right triangle. -/
def triPts : List BezierPoint := [bp 0 0, bp 4 0, bp 0 3]

/-- Closed triangular chain of three straight segments. -/
def triSegs : List BezierSegment := pointsToBezierSegments triPts Continuity.C1

/-- A space with the given index and curvature and no spots (spots and
positions are irrelevant to corner suggestion). -/
def mkSpace (idx : Nat) (curv : ℚ) : Space :=
  { id := "", index := idx, position := ⟨0, 0⟩, spots := [],
    metadata := { isCornerLine := false, isStartFinish := false,
                  isStraight := false, curvature := curv, trackWidth := 100,
                  surface := "asphalt" } }

/-- Five spaces on a ring; only indices 0 and 4 exceed the curvature
threshold 1/10. -/
def c2spaces : List Space :=
  [mkSpace 0 1, mkSpace 1 0, mkSpace 2 0, mkSpace 3 0, mkSpace 4 (1 / 2)]

/-- A single race-line spot. -/
def raceSpot : Spot :=
  { id := "", position := ⟨0, 0⟩, type := SpotType.raceLine,
    isOccupied := false, spotIndex := 0, isBlocking := false,
    slipstreamValue := 0 }

/-- A single space carrying exactly one race-line spot. -/
def oneSpace : Space := { mkSpace 0 0 with spots := [raceSpot] }

/-- A corner in slot 0 with a legal speed limit. -/
def dupCornerA : Corner := { (default : Corner) with id := "a", spaceIndex := 0, speedLimit := 3 }

/-- A second, distinct corner occupying the same slot 0. -/
def dupCornerB : Corner := { dupCornerA with id := "b" }

/-- Track with a single corner in slot 0. -/
def singleCornerTrack : TrackData :=
  { id := ""
    splinePath := createSplinePathFromSegments triSegs "#3182ce" 3 true
    spaces := [oneSpace]
    corners := [dupCornerA]
    metadata := createDefaultTrackMetadata }

/-- The same track with a duplicate corner in slot 0. -/
def dupCornerTrack : TrackData :=
  { singleCornerTrack with corners := [dupCornerA, dupCornerB] }

/-- First segment of a two-segment chain used to exhibit the in-place
mutation of `enforceContinuity`; every tangent length that the C1 pass takes
is a square root of a perfect square (1, 4, 25, 9). -/
def ecSeg0 : BezierSegment :=
  { id := "a", startPoint := bp 0 0, endPoint := bp 1 0, cp1 := ⟨2, 0⟩,
    cp2 := ⟨0, -3⟩, continuity := Continuity.C1 }

/-- Second segment of that chain. -/
def ecSeg1 : BezierSegment :=
  { id := "b", startPoint := bp 1 0, endPoint := bp 0 0, cp1 := ⟨3, 4⟩,
    cp2 := ⟨1, -2⟩, continuity := Continuity.C0 }

/-- Settings asking for C1 enforcement only. -/
def ecSettings : ContinuitySettings :=
  { enforceC1 := true, enforceC2 := false, tolerance := 0 }

/-- Settings asking for no enforcement at all. -/
def noEnforceSettings : ContinuitySettings :=
  { enforceC1 := false, enforceC2 := false, tolerance := 0 }

/-- What the round trip actually does to an interior point: coordinates and
inbound handle are preserved, while an absent outbound handle is materialized
as the point's own coordinates (a zero-length handle). -/
def materializeHandleOut (p : BezierPoint) : BezierPoint :=
  { p with handleOut := some (p.handleOut.getD (toPoint p)) }

/-- The extra point the round trip appends: a duplicate of the first point
closing the loop, with its inbound handle materialized. -/
def closingPoint (p0 : BezierPoint) : BezierPoint :=
  { x := p0.x, y := p0.y, handleIn := some (p0.handleIn.getD (toPoint p0)),
    handleOut := p0.handleOut }

/-- The linear (absolute-difference) spacing relation the greedy loop
actually enforces between accepted corners. -/
def linearSpacingOk (m : ℚ) (c1 c2 : Corner) : Prop :=
  m ≤ |((c1.spaceIndex : ℚ)) - ((c2.spaceIndex : ℚ))|

/-- The consistency of the speed-derived corner fields asserted by C10. -/
def cornerSpeedFieldsOk (c : Corner) : Prop :=
  (1 ≤ c.speedLimit ∧ c.speedLimit ≤ 5) ∧
  c.suggestedGear = c.speedLimit ∧ c.heatPenalty = 6 - c.speedLimit

/-- The first segment of the triangular chain, written out. -/
def triSeg0 : BezierSegment :=
  { id := "", startPoint := bp 0 0, endPoint := bp 4 0, cp1 := ⟨0, 0⟩,
    cp2 := ⟨4, 0⟩, continuity := Continuity.C1 }

/-- The second segment of the triangular chain, written out. -/
def triSeg1 : BezierSegment :=
  { id := "", startPoint := bp 4 0, endPoint := bp 0 3, cp1 := ⟨4, 0⟩,
    cp2 := ⟨0, 3⟩, continuity := Continuity.C0 }

/-- The third segment of the triangular chain, written out. -/
def triSeg2 : BezierSegment :=
  { id := "", startPoint := bp 0 3, endPoint := bp 0 0, cp1 := ⟨0, 3⟩,
    cp2 := ⟨0, 0⟩, continuity := Continuity.C0 }

/-! ### Shared helper lemmas -/

theorem range_length_map_getD {α β : Type} (l : List α) (d : α) (F : α → β) :
    (List.range l.length).map (fun i => F (l.getD i d)) = l.map F := by
  induction l with
  | nil => rfl
  | cons a l ih =>
    rw [List.length_cons, List.range_succ_eq_map, List.map_cons, List.map_map]
    simp only [Function.comp_def, List.getD_cons_zero, List.getD_cons_succ]
    rw [ih, List.map_cons]

theorem range_getLast?_eq (n : Nat) (h : 0 < n) :
    (List.range n).getLast? = some (n - 1) := by
  cases n with
  | zero => omega
  | succ m => rw [List.range_succ, List.getLast?_concat]; rfl

/-- `pointsToBezierSegments` on a list of at least two points is a map over
the index range. -/
theorem pointsToBezierSegments_eq_map (points : List BezierPoint)
    (c : Continuity) (h : 2 ≤ points.length) :
    pointsToBezierSegments points c = (List.range points.length).map fun i =>
      let current := points.getD i ⟨0, 0, none, none⟩
      let next := points.getD ((i + 1) % points.length) ⟨0, 0, none, none⟩
      { id := ""
        startPoint := current
        endPoint := next
        cp1 := current.handleOut.getD (toPoint current)
        cp2 := next.handleIn.getD (toPoint next)
        continuity := if i = 0 then c else Continuity.C0 } := by
  unfold pointsToBezierSegments
  rw [if_neg (by omega)]

/-! ### C6 -/

/-- C6 (amended): an input of exactly 2 control points produces exactly two
segments (the closed wrap-around chain), and `discretizePathToSpaces` on the
resulting segment list produces one Space per requested space index, not an
empty array; neither operation throws. -/
theorem two_points_two_segments (p q : BezierPoint) (c : Continuity)
    (sqrtQ : ℚ → ℚ) (targetSpacesPerLap : Nat) (trackWidth : ℚ)
    (spotCount : Nat) :
    (pointsToBezierSegments [p, q] c).length = 2 ∧
    (discretizePathToSpaces sqrtQ (pointsToBezierSegments [p, q] c)
      targetSpacesPerLap trackWidth spotCount).length = targetSpacesPerLap := by
  have hlen : (pointsToBezierSegments [p, q] c).length = 2 := by
    rw [pointsToBezierSegments_eq_map _ _ (by simp)]
    simp
  refine ⟨hlen, ?_⟩
  unfold discretizePathToSpaces
  rw [if_neg (by omega)]
  simp

/-- C6, counterexample to the claim as stated: two points yield 2 segments
(not zero) and a non-empty Space array (not empty). -/
theorem two_points_not_degenerate :
    (pointsToBezierSegments [bp 0 0, bp 0 0] Continuity.C1).length = 2 ∧
    (discretizePathToSpaces ratSqrt
      (pointsToBezierSegments [bp 0 0, bp 0 0] Continuity.C1) 8 100 5).length = 8 ∧
    (2 : Nat) ≠ 0 ∧ (8 : Nat) ≠ 0 := by
  refine ⟨by decide, ?_, by omega, by omega⟩
  unfold discretizePathToSpaces
  rw [if_neg (by decide)]
  simp

/-! ### C7 -/

/-- C7 (amended): for every list of N ≥ 2 control points,
`pointsToBezierSegments` produces exactly N segments — the chain is
unconditionally treated as closed, there is no open (N-1 segment) mode —
and segment i runs from point i to point (i+1) mod N, with cp1 the start
point's outbound handle and cp2 the end point's inbound handle, falling back
to the point itself when the handle is absent. -/
theorem pointsToBezierSegments_closed_shape (points : List BezierPoint)
    (c : Continuity) (h : 2 ≤ points.length) :
    (pointsToBezierSegments points c).length = points.length ∧
    ∀ i, i < points.length →
      ((pointsToBezierSegments points c).getD i default).startPoint =
          points.getD i ⟨0, 0, none, none⟩ ∧
      ((pointsToBezierSegments points c).getD i default).endPoint =
          points.getD ((i + 1) % points.length) ⟨0, 0, none, none⟩ ∧
      ((pointsToBezierSegments points c).getD i default).cp1 =
          ((points.getD i ⟨0, 0, none, none⟩).handleOut.getD
            (toPoint (points.getD i ⟨0, 0, none, none⟩))) ∧
      ((pointsToBezierSegments points c).getD i default).cp2 =
          ((points.getD ((i + 1) % points.length) ⟨0, 0, none, none⟩).handleIn.getD
            (toPoint (points.getD ((i + 1) % points.length) ⟨0, 0, none, none⟩))) := by
  rw [pointsToBezierSegments_eq_map _ _ h]
  constructor
  · simp
  · intro i hi
    simp only [List.getD_eq_getElem?_getD, List.getElem?_map,
      List.getElem?_range hi, Option.map_some, Option.getD_some]
    exact ⟨rfl, rfl, rfl, rfl⟩

/-- C7, witness: the shape theorem applied to a concrete 2-point list at
index 1 (whose segment wraps around to point 0). -/
theorem pointsToBezierSegments_closed_shape_witness :
    2 ≤ ([bp 0 1, bp 2 3] : List BezierPoint).length ∧
    (1 : Nat) < ([bp 0 1, bp 2 3] : List BezierPoint).length ∧
    (pointsToBezierSegments [bp 0 1, bp 2 3] Continuity.C1).length = 2 ∧
    ((pointsToBezierSegments [bp 0 1, bp 2 3] Continuity.C1).getD 1 default).startPoint = bp 2 3 ∧
    ((pointsToBezierSegments [bp 0 1, bp 2 3] Continuity.C1).getD 1 default).endPoint = bp 0 1 :=
  ⟨by simp, by simp,
    (pointsToBezierSegments_closed_shape [bp 0 1, bp 2 3] Continuity.C1 (by simp)).1,
    ((pointsToBezierSegments_closed_shape [bp 0 1, bp 2 3] Continuity.C1 (by simp)).2 1
      (by simp)).1,
    (((pointsToBezierSegments_closed_shape [bp 0 1, bp 2 3] Continuity.C1 (by simp)).2 1
      (by simp)).2).1⟩

/-- C7, counterexample to the claim as stated: on 3 points the function
returns 3 segments for every value of its only other parameter, never the
N-1 = 2 segments the claim promises for an open chain — there is no open
mode. -/
theorem no_open_chain_mode :
    (pointsToBezierSegments triPts Continuity.C0).length = 3 ∧
    (pointsToBezierSegments triPts Continuity.C1).length = 3 ∧
    (pointsToBezierSegments triPts Continuity.C2).length = 3 ∧
    (3 : Nat) ≠ 3 - 1 := by
  refine ⟨?_, ?_, ?_, by omega⟩ <;>
    · rw [pointsToBezierSegments_eq_map _ _ (by simp [triPts])]
      simp [triPts]

/-! ### C3 -/

/-- C3 (amended): for every list of N ≥ 2 points, the round trip
`bezierSegmentsToPoints (pointsToBezierSegments points)` does not reproduce
the input: it returns N+1 points — the N input points in order, with
coordinates and inbound handles preserved exactly and absent outbound
handles materialized to the point's own coordinates, followed by a duplicate
of the first point that closes the loop. -/
theorem roundTrip_appends_closing_point (points : List BezierPoint)
    (c : Continuity) (h : 2 ≤ points.length) :
    bezierSegmentsToPoints (pointsToBezierSegments points c) =
      points.map materializeHandleOut ++
        [closingPoint (points.getD 0 ⟨0, 0, none, none⟩)] := by
  rw [pointsToBezierSegments_eq_map _ _ h]
  unfold bezierSegmentsToPoints
  rw [if_neg (by rw [List.length_map, List.length_range]; omega)]
  congr 1
  · rw [List.map_map]
    rw [← range_length_map_getD points ⟨0, 0, none, none⟩ materializeHandleOut]
    rfl
  · rw [List.getLast?_map, range_getLast?_eq _ (by omega), Option.map_some']
    show [_] = [closingPoint _]
    rw [show points.length - 1 + 1 = points.length from by omega, Nat.mod_self]
    rfl

/-- C3, witness: the round-trip description applied to a concrete 2-point
list. -/
theorem roundTrip_appends_closing_point_witness :
    2 ≤ ([bp 1 2, bp 3 4] : List BezierPoint).length ∧
    bezierSegmentsToPoints (pointsToBezierSegments [bp 1 2, bp 3 4] Continuity.C1) =
      ([bp 1 2, bp 3 4] : List BezierPoint).map materializeHandleOut ++
        [closingPoint (([bp 1 2, bp 3 4] : List BezierPoint).getD 0 ⟨0, 0, none, none⟩)] :=
  ⟨by simp, roundTrip_appends_closing_point [bp 1 2, bp 3 4] Continuity.C1 (by simp)⟩

/-- C3, counterexample to the claim as stated: the round trip on 2 points
returns 3 points, not the same number of points. -/
theorem roundTrip_adds_point :
    (bezierSegmentsToPoints (pointsToBezierSegments [bp 1 2, bp 3 4]
      Continuity.C1)).length = 3 ∧
    ([bp 1 2, bp 3 4] : List BezierPoint).length = 2 ∧ (3 : Nat) ≠ 2 := by
  exact ⟨by decide, by decide, by omega⟩

/-! ### C2 -/

-- The Batteries rational operations are `@[irreducible]`; make them
-- reducible here so concrete rational computations can be settled by `decide`.
attribute [local semireducible] Rat.add Rat.mul Rat.inv Rat.sub Rat.ofScientific

theorem mem_insertByCurvatureDesc (cand : Space × ℚ) :
    ∀ (l : List (Space × ℚ)) (x : Space × ℚ),
      x ∈ insertByCurvatureDesc cand l → x = cand ∨ x ∈ l
  | [], x, hx => by
      rw [insertByCurvatureDesc] at hx
      exact Or.inl (List.mem_singleton.mp hx)
  | head :: tail, x, hx => by
      rw [insertByCurvatureDesc] at hx
      by_cases hc : cand.2 ≤ head.2
      · rw [if_pos hc] at hx
        rcases List.mem_cons.mp hx with h | h
        · exact Or.inr (List.mem_cons.mpr (Or.inl h))
        · rcases mem_insertByCurvatureDesc cand tail x h with h2 | h2
          · exact Or.inl h2
          · exact Or.inr (List.mem_cons.mpr (Or.inr h2))
      · rw [if_neg hc] at hx
        rcases List.mem_cons.mp hx with h | h
        · exact Or.inl h
        · exact Or.inr h

theorem mem_sortByCurvatureDesc_go :
    ∀ (cands acc : List (Space × ℚ)) (x : Space × ℚ),
      x ∈ cands.foldl (fun a c => insertByCurvatureDesc c a) acc →
      x ∈ acc ∨ x ∈ cands
  | [], _, _, hx => Or.inl hx
  | c :: cands, acc, x, hx => by
      rcases mem_sortByCurvatureDesc_go cands _ x hx with h | h
      · rcases mem_insertByCurvatureDesc c acc x h with h2 | h2
        · exact Or.inr (List.mem_cons.mpr (Or.inl h2))
        · exact Or.inl h2
      · exact Or.inr (List.mem_cons.mpr (Or.inr h))

theorem mem_sortByCurvatureDesc {l : List (Space × ℚ)} {x : Space × ℚ}
    (hx : x ∈ sortByCurvatureDesc l) : x ∈ l := by
  rcases mem_sortByCurvatureDesc_go l [] x hx with h | h
  · cases h
  · exact h

theorem autoSuggestCornersStep_invariant (m : ℚ) (acc : List Corner × List Nat)
    (cd : Space × ℚ)
    (hmem : ∀ c ∈ acc.1, c.spaceIndex ∈ acc.2)
    (hpw : acc.1.Pairwise (linearSpacingOk m)) :
    (∀ c ∈ (autoSuggestCornersStep m acc cd).1,
      c.spaceIndex ∈ (autoSuggestCornersStep m acc cd).2) ∧
    (autoSuggestCornersStep m acc cd).1.Pairwise (linearSpacingOk m) := by
  rw [autoSuggestCornersStep]
  by_cases htc :
      (acc.2.any fun usedIndex =>
        |((cd.1.index : ℚ)) - ((usedIndex : ℚ))| < m) = true
  · rw [if_pos htc]
    exact ⟨hmem, hpw⟩
  · rw [if_neg htc]
    have hfar : ∀ u ∈ acc.2, m ≤ |((cd.1.index : ℚ)) - ((u : ℚ))| := by
      intro u hu
      have := List.any_eq_true.not.mp htc
      push_neg at this
      have h2 := this u hu
      simpa using h2
    constructor
    · intro c hc
      rcases List.mem_append.mp hc with h | h
      · exact List.mem_append.mpr (Or.inl (hmem c h))
      · rw [List.mem_singleton.mp h]
        exact List.mem_append.mpr (Or.inr (List.mem_singleton.mpr rfl))
    · rw [List.pairwise_append]
      refine ⟨hpw, List.pairwise_singleton _ _, ?_⟩
      intro a ha b hb
      rw [List.mem_singleton.mp hb]
      show m ≤ |((a.spaceIndex : ℚ)) - ((cd.1.index : ℚ))|
      rw [abs_sub_comm]
      exact hfar a.spaceIndex (hmem a ha)

theorem autoSuggestCorners_foldl_invariant (m : ℚ) :
    ∀ (cands : List (Space × ℚ)) (acc : List Corner × List Nat),
      (∀ c ∈ acc.1, c.spaceIndex ∈ acc.2) →
      acc.1.Pairwise (linearSpacingOk m) →
      (∀ c ∈ (cands.foldl (autoSuggestCornersStep m) acc).1,
        c.spaceIndex ∈ (cands.foldl (autoSuggestCornersStep m) acc).2) ∧
      (cands.foldl (autoSuggestCornersStep m) acc).1.Pairwise (linearSpacingOk m)
  | [], acc, hmem, hpw => ⟨hmem, hpw⟩
  | cd :: cands, acc, hmem, hpw => by
      rw [List.foldl_cons]
      have hstep := autoSuggestCornersStep_invariant m acc cd hmem hpw
      exact autoSuggestCorners_foldl_invariant m cands _ hstep.1 hstep.2

/-- C2 (amended): any two distinct corners returned by `autoSuggestCorners`
are at least `minCornerSpacing` apart in ABSOLUTE space-index distance
|i - j| — the code measures linear distance with `Math.abs`, not circular
ring distance, so the guarantee holds for the linear metric only. -/
theorem autoSuggestCorners_linear_spacing (spaces : List Space)
    (curvatureThreshold minCornerSpacing : ℚ) :
    (autoSuggestCorners spaces curvatureThreshold minCornerSpacing).Pairwise
      (linearSpacingOk minCornerSpacing) := by
  rw [autoSuggestCorners]
  exact (autoSuggestCorners_foldl_invariant minCornerSpacing _ ([], [])
    (by intro c hc; cases hc) List.Pairwise.nil).2

/-- C2, counterexample to the claim as stated: with 5 spaces whose indices 0
and 4 both exceed the curvature threshold, both are accepted (linear distance
4 ≥ 3) although their circular ring distance is only 1 < 3. -/
theorem autoSuggestCorners_violates_circular_spacing :
    (autoSuggestCorners c2spaces (1 / 10) 3).map (fun c => c.spaceIndex) = [0, 4] ∧
    c2spaces.length = 5 ∧
    ((circularSpaceDistance 5 0 4 : ℚ)) < 3 := by
  refine ⟨by decide, by decide, by decide⟩

/-! ### C10 -/

theorem speedLimit_bounds (curvature : ℚ) (h : 0 < curvature) :
    1 ≤ calculateSpeedLimit curvature (determineCornerType curvature) ∧
    calculateSpeedLimit curvature (determineCornerType curvature) ≤ 5 := by
  have hfloor : ∀ k : ℚ, 0 < k → ((⌊(6 : ℚ) - curvature * k⌋ : ℤ) : ℚ) ≤ 5 := by
    intro k hk
    have hlt : (6 : ℚ) - curvature * k < ((6 : ℤ) : ℚ) := by push_cast; nlinarith
    have h6 : (⌊(6 : ℚ) - curvature * k⌋ : ℤ) < 6 := Int.floor_lt.mpr hlt
    have h5 : (⌊(6 : ℚ) - curvature * k⌋ : ℤ) ≤ 5 := by omega
    exact_mod_cast h5
  rw [determineCornerType]
  split_ifs with h1 h2 h3 <;> rw [calculateSpeedLimit] <;>
    refine ⟨le_trans (by norm_num) (le_max_left _ _),
      max_le (by norm_num) (hfloor _ (by norm_num))⟩

theorem gearHeat_of_bounds (s : ℚ) (h1 : 1 ≤ s) (h5 : s ≤ 5) :
    calculateSuggestedGear s = s ∧ calculateHeatPenalty s = 6 - s := by
  constructor
  · rw [calculateSuggestedGear, min_eq_right (by linarith), max_eq_right h1]
  · rw [calculateHeatPenalty, max_eq_right (by linarith)]

theorem autoSuggestCorners_foldl_speed (th m : ℚ) (hth : 0 ≤ th) :
    ∀ (cands : List (Space × ℚ)) (acc : List Corner × List Nat),
      (∀ cd ∈ cands, th < cd.2) →
      (∀ c ∈ acc.1, cornerSpeedFieldsOk c) →
      ∀ c ∈ (cands.foldl (autoSuggestCornersStep m) acc).1, cornerSpeedFieldsOk c
  | [], _, _, hacc => hacc
  | cd :: cands, acc, hcands, hacc => by
      rw [List.foldl_cons]
      apply autoSuggestCorners_foldl_speed th m hth cands _
        (fun x hx => hcands x (List.mem_cons.mpr (Or.inr hx)))
      intro c hc
      rw [autoSuggestCornersStep] at hc
      by_cases htc :
          (acc.2.any fun usedIndex =>
            |((cd.1.index : ℚ)) - ((usedIndex : ℚ))| < m) = true
      · rw [if_pos htc] at hc
        exact hacc c hc
      · rw [if_neg htc] at hc
        rcases List.mem_append.mp hc with h | h
        · exact hacc c h
        · rw [List.mem_singleton.mp h]
          have hcurv : 0 < cd.2 :=
            lt_of_le_of_lt hth (hcands cd (List.mem_cons.mpr (Or.inl rfl)))
          have hb := speedLimit_bounds cd.2 hcurv
          have hg := gearHeat_of_bounds _ hb.1 hb.2
          exact ⟨⟨hb.1, hb.2⟩, hg.1, hg.2⟩

/-- C10 (amended): for every curvature threshold of at least 2^-50 — one
ulp of 6, ruling out accepted curvatures so tiny that the source's binary64
computation of 6 - curvature * k rounds up to exactly 6, see
`calculateSpeedLimitFP` — every corner returned by `autoSuggestCorners` has
speed limit between 1 and 5 inclusive, in particular within the validator
range check [1, 6], with suggested gear equal to the speed limit and heat
penalty equal to 6 minus the speed limit.  Above this threshold the exact
arithmetic used here and the source's double arithmetic can still disagree
on the speed limit value by one near interior floor boundaries, but they
agree on the [1, 5] bound and on the gear and heat relations, which is what
is asserted. -/
theorem autoSuggestCorners_speed_fields (spaces : List Space)
    (curvatureThreshold minCornerSpacing : ℚ)
    (hth : 1 / 2 ^ 50 ≤ curvatureThreshold) :
    ∀ c ∈ autoSuggestCorners spaces curvatureThreshold minCornerSpacing,
      (1 ≤ c.speedLimit ∧ c.speedLimit ≤ 5) ∧ c.speedLimit ≤ 6 ∧
      c.suggestedGear = c.speedLimit ∧ c.heatPenalty = 6 - c.speedLimit := by
  intro c hc
  rw [autoSuggestCorners] at hc
  have hcands : ∀ cd ∈ sortByCurvatureDesc (spaces.filterMap fun space =>
      if space.metadata.curvature > curvatureThreshold then
        some (space, space.metadata.curvature)
      else none), curvatureThreshold < cd.2 := by
    intro cd hcd
    have hmem := mem_sortByCurvatureDesc hcd
    rcases List.mem_filterMap.mp hmem with ⟨space, _, hf⟩
    by_cases hcond : space.metadata.curvature > curvatureThreshold
    · rw [if_pos hcond] at hf
      cases hf
      exact hcond
    · rw [if_neg hcond] at hf
      cases hf
  have hth0 : (0 : ℚ) ≤ curvatureThreshold := le_trans (by positivity) hth
  have := autoSuggestCorners_foldl_speed curvatureThreshold minCornerSpacing hth0
    _ ([], []) hcands (by intro x hx; cases hx) c hc
  exact ⟨this.1, by linarith [this.1.2], this.2.1, this.2.2⟩

/-- C10, witness: the theorem applied to the first corner suggested on the
concrete five-space ring. -/
theorem autoSuggestCorners_speed_fields_witness :
    (1 : ℚ) / 2 ^ 50 ≤ 1 / 10 ∧
    ((autoSuggestCorners c2spaces (1 / 10) 3).getD 0 default ∈
      autoSuggestCorners c2spaces (1 / 10) 3) ∧
    ((1 ≤ ((autoSuggestCorners c2spaces (1 / 10) 3).getD 0 default).speedLimit ∧
      ((autoSuggestCorners c2spaces (1 / 10) 3).getD 0 default).speedLimit ≤ 5) ∧
     ((autoSuggestCorners c2spaces (1 / 10) 3).getD 0 default).speedLimit ≤ 6 ∧
     ((autoSuggestCorners c2spaces (1 / 10) 3).getD 0 default).suggestedGear =
       ((autoSuggestCorners c2spaces (1 / 10) 3).getD 0 default).speedLimit ∧
     ((autoSuggestCorners c2spaces (1 / 10) 3).getD 0 default).heatPenalty =
       6 - ((autoSuggestCorners c2spaces (1 / 10) 3).getD 0 default).speedLimit) :=
  ⟨by norm_num, by decide,
    autoSuggestCorners_speed_fields c2spaces (1 / 10) 3 (by norm_num) _ (by decide)⟩

set_option maxRecDepth 200000 in
/-- C10, counterexample to the claim as stated: with curvature threshold 0
(allowed by the claim) and a single space whose curvature is the exactly
representable double 2^-57, a corner IS suggested — the threshold and
curvature-band comparisons compare doubles exactly, and the corner type is
chicane — but the source's speed-limit computation in its own binary64
arithmetic rounds 6 - curvature * 12 up to exactly 6, so the program's
speed limit is 6, outside [1, 5], and its heat penalty is
max(1, 6 - 6) = 1, not 6 - speedLimit = 0. -/
theorem tiny_curvature_speed_limit_six :
    ((0 : ℚ) ≤ 0) ∧
    ((1 : ℚ) / 2 ^ 57 > 0) ∧
    (autoSuggestCorners [mkSpace 0 (1 / 2 ^ 57)] 0 3).length = 1 ∧
    determineCornerType (1 / 2 ^ 57) = CornerType.chicane ∧
    roundToDouble ((6 : ℚ) - roundToDouble ((1 / 2 ^ 57) * 12)) = 6 ∧
    calculateSpeedLimitFP (1 / 2 ^ 57) CornerType.chicane = 6 ∧
    ¬(calculateSpeedLimitFP (1 / 2 ^ 57) CornerType.chicane ≤ 5) ∧
    calculateHeatPenalty (calculateSpeedLimitFP (1 / 2 ^ 57) CornerType.chicane) = 1 ∧
    (6 : ℚ) - calculateSpeedLimitFP (1 / 2 ^ 57) CornerType.chicane = 0 ∧
    (1 : ℚ) ≠ 0 := by
  refine ⟨le_refl 0, by decide, by decide, by decide, by decide, by decide,
    by decide, by decide, by decide, by norm_num⟩

/-! ### C4 -/

theorem calculateSegmentArcLength_nonneg (sqrtQ : ℚ → ℚ)
    (hnn : ∀ q, 0 ≤ q → 0 ≤ sqrtQ q) (segment : BezierSegment) (samples : Nat) :
    0 ≤ calculateSegmentArcLength sqrtQ segment samples := by
  rw [calculateSegmentArcLength]
  have main : ∀ (l : List Nat) (acc : ℚ × Point), 0 ≤ acc.1 →
      0 ≤ (l.foldl
        (fun (acc : ℚ × Point) (k : Nat) =>
          let i : Nat := k + 1
          let t := (i : ℚ) / (samples : ℚ)
          let point := evaluateCubicBezier (toPoint segment.startPoint)
            segment.cp1 segment.cp2 (toPoint segment.endPoint) t
          let dx := point.x - acc.2.x
          let dy := point.y - acc.2.y
          (acc.1 + sqrtQ (dx * dx + dy * dy), point)) acc).1 := by
    intro l
    induction l with
    | nil => intro acc h; exact h
    | cons k l ih =>
      intro acc h
      rw [List.foldl_cons]
      apply ih
      refine add_nonneg h (hnn _ ?_)
      exact add_nonneg (mul_self_nonneg _) (mul_self_nonneg _)
  exact main _ _ le_rfl

/-- Prefix sums stay below the full sum when every added term is
non-negative. -/
theorem foldl_addSegLength_le (sqrtQ : ℚ → ℚ)
    (hnn : ∀ q, 0 ≤ q → 0 ≤ sqrtQ q) (samples : Nat) :
    ∀ (rest : List BezierSegment) (b : ℚ),
      b ≤ rest.foldl
        (fun a s => a + calculateSegmentArcLength sqrtQ s samples) b
  | [], _ => le_rfl
  | s :: rest, b => by
      rw [List.foldl_cons]
      calc b ≤ b + calculateSegmentArcLength sqrtQ s samples := by
              linarith [calculateSegmentArcLength_nonneg sqrtQ hnn s samples]
        _ ≤ _ := foldl_addSegLength_le sqrtQ hnn samples rest _

theorem findTForDistanceGo_fallback (sqrtQ : ℚ → ℚ)
    (hnn : ∀ q, 0 ≤ q → 0 ≤ sqrtQ q) (allLen samples : Nat) (target : ℚ) :
    ∀ (rest : List BezierSegment) (i : Nat) (acc : ℚ),
      rest.foldl (fun a s => a + calculateSegmentArcLength sqrtQ s samples) acc
        < target →
      findTForDistanceGo sqrtQ allLen target samples rest i acc =
        (allLen - 1, 1)
  | [], _, _, _ => rfl
  | s :: rest, i, acc, hlt => by
      rw [findTForDistanceGo]
      rw [List.foldl_cons] at hlt
      have hle : acc + calculateSegmentArcLength sqrtQ s samples < target :=
        lt_of_le_of_lt (foldl_addSegLength_le sqrtQ hnn samples rest _) hlt
      rw [if_neg (by exact not_le.mpr hle)]
      exact findTForDistanceGo_fallback sqrtQ hnn allLen samples target rest
        (i + 1) _ hlt

/-- C4: when the target distance strictly exceeds the total chain arc length
(the sum of all segment arc lengths), `findTForDistance` does not throw: the
walk falls through every segment and the fallback returns the final segment
at t = 1, i.e. (segments.length - 1, 1).  Requires only that the square root
is non-negative on non-negative arguments, which holds for `Math.sqrt`. -/
theorem findTForDistance_clamps_overshoot (sqrtQ : ℚ → ℚ)
    (segments : List BezierSegment) (targetDistance : ℚ) (samples : Nat)
    (hnn : ∀ q, 0 ≤ q → 0 ≤ sqrtQ q) (_hne : segments ≠ [])
    (hgt : calculateChainArcLength sqrtQ segments samples < targetDistance) :
    findTForDistance sqrtQ segments targetDistance samples =
      (segments.length - 1, 1) := by
  rw [findTForDistance]
  exact findTForDistanceGo_fallback sqrtQ hnn segments.length samples
    targetDistance segments 0 0 hgt

set_option maxRecDepth 40000 in
/-- C4, witness: the clamping theorem applied to a concrete one-segment
chain of total length 0 with target distance 1. -/
theorem findTForDistance_clamps_overshoot_witness :
    ([zeroSeg] : List BezierSegment) ≠ [] ∧
    calculateChainArcLength ratSqrt [zeroSeg] 100 < 1 ∧
    findTForDistance ratSqrt [zeroSeg] 1 100 = (0, 1) :=
  ⟨by decide, by decide,
    findTForDistance_clamps_overshoot ratSqrt [zeroSeg] 1 100 ratSqrt_nonneg
      (by decide) (by decide)⟩

/-! ### C8 -/

theorem enforceContinuityStep_id_of_no_flags (sqrtQ : ℚ → ℚ)
    (settings : ContinuitySettings) (h1 : settings.enforceC1 = false)
    (h2 : settings.enforceC2 = false) (state : List BezierSegment) (i : Nat) :
    enforceContinuityStep sqrtQ settings state i = state := by
  rw [enforceContinuityStep]
  rw [h1, h2]
  simp

/-- C8 (amended): `enforceContinuity` mutates the caller's segment objects in
place (the returned array is a shallow copy holding the same objects); it is
a pure no-op only when both enforcement flags are off, in which case the
input segment states are returned unchanged. -/
theorem enforceContinuity_id_of_no_flags (sqrtQ : ℚ → ℚ)
    (segments : List BezierSegment) (settings : ContinuitySettings)
    (h1 : settings.enforceC1 = false) (h2 : settings.enforceC2 = false) :
    enforceContinuity sqrtQ segments settings = segments := by
  rw [enforceContinuity]
  split
  · rfl
  · have hfold : ∀ (l : List Nat) (init : List BezierSegment),
        l.foldl (enforceContinuityStep sqrtQ settings) init = init := by
      intro l
      induction l with
      | nil => intro init; rfl
      | cons a l ih =>
        intro init
        rw [List.foldl_cons, enforceContinuityStep_id_of_no_flags sqrtQ settings h1 h2, ih]
    exact hfold _ _

/-- C8, witness: with both flags off the embedded two-segment chain state is
returned unchanged. -/
theorem enforceContinuity_id_of_no_flags_witness :
    noEnforceSettings.enforceC1 = false ∧ noEnforceSettings.enforceC2 = false ∧
    enforceContinuity ratSqrt [ecSeg0, ecSeg1] noEnforceSettings = [ecSeg0, ecSeg1] :=
  ⟨rfl, rfl, enforceContinuity_id_of_no_flags ratSqrt [ecSeg0, ecSeg1]
    noEnforceSettings rfl rfl⟩

/-- C8, counterexample to the claim as stated: with C1 enforcement on, the
call rewrites the `cp2` of the second input segment object (the post-call
state of the caller's own object differs from its initial state), so
`enforceContinuity` does not leave the input segment objects unchanged. -/
theorem enforceContinuity_mutates_input :
    ((enforceContinuity ratSqrt [ecSeg0, ecSeg1] ecSettings).getD 1
      default).cp2 = ⟨-1, 0⟩ ∧
    ecSeg1.cp2 = ⟨1, -2⟩ ∧
    ((enforceContinuity ratSqrt [ecSeg0, ecSeg1] ecSettings).getD 1
      default).cp2 ≠ ecSeg1.cp2 := by
  refine ⟨by decide, by decide, by decide⟩

/-! ### C9 -/

/-- C9 (amended): `validateTrackData` performs no duplicate-corner-slot
check: appending a corner whose `spaceIndex` is in range and whose
`speedLimit` is within [1, 6] — in particular an exact duplicate of a corner
already present — leaves the returned error list unchanged, so a duplicated
slot is never reported (the validator reports by returning a list, and no
entry of that list concerns the duplication). -/
theorem validateTrackData_ignores_duplicate_corner (track : TrackData)
    (c : Corner) (hidx : c.spaceIndex < track.spaces.length)
    (h1 : 1 ≤ c.speedLimit) (h6 : c.speedLimit ≤ 6) :
    validateTrackData { track with corners := track.corners ++ [c] } =
      validateTrackData track := by
  have hc : cornerErrors track.spaces.length c = [] := by
    rw [cornerErrors]
    rw [if_neg (by omega), if_neg (by push_neg; constructor <;> linarith)]
    rfl
  rw [validateTrackData, validateTrackData]
  simp only [List.map_append, List.flatten_append]
  rw [show ([c] : List Corner).map (cornerErrors track.spaces.length) = [[]] by
    rw [List.map_singleton, hc]]
  simp

/-- C9, witness: the theorem applied to the concrete one-space track and a
duplicate of its corner in slot 0. -/
theorem validateTrackData_ignores_duplicate_corner_witness :
    dupCornerB.spaceIndex < singleCornerTrack.spaces.length ∧
    1 ≤ dupCornerB.speedLimit ∧ dupCornerB.speedLimit ≤ 6 ∧
    validateTrackData { singleCornerTrack with
      corners := singleCornerTrack.corners ++ [dupCornerB] } =
      validateTrackData singleCornerTrack :=
  ⟨by decide, by decide, by decide,
    validateTrackData_ignores_duplicate_corner singleCornerTrack dupCornerB
      (by decide) (by decide) (by decide)⟩

/-- C9, counterexample to the claim as stated: a track whose corner array
holds two distinct corners with the same `spaceIndex` validates to exactly
the same error list as the track without the duplicate — no returned error
reports the duplicated corner slot. -/
theorem validateTrackData_misses_duplicate_corner :
    dupCornerA ≠ dupCornerB ∧
    dupCornerA.spaceIndex = dupCornerB.spaceIndex ∧
    dupCornerTrack.corners = [dupCornerA, dupCornerB] ∧
    validateTrackData dupCornerTrack = validateTrackData singleCornerTrack := by
  refine ⟨by decide, by decide, by decide, by decide⟩

/-! ### C5 -/

theorem countP_range_eq_one (n a : Nat) (h : a < n) :
    (List.range n).countP (fun i => decide (i = a)) = 1 := by
  induction n with
  | zero => omega
  | succ m ih =>
    rw [List.range_succ, List.countP_append]
    by_cases hc : a = m
    · subst hc
      rw [List.countP_eq_zero.mpr ?_]
      · simp
      · intro x hx
        have := List.mem_range.mp hx
        simp only [decide_eq_true_eq]
        omega
    · rw [ih (by omega)]
      have : (List.countP (fun i => decide (i = a)) [m]) = 0 := by
        rw [List.countP_eq_zero.mpr]
        intro x hx
        rw [List.mem_singleton.mp hx]
        simp only [decide_eq_true_eq]
        omega
      omega

theorem generateSpotsForSpace_shape (sqrtQ : ℚ → ℚ) (center tangent : Point)
    (trackWidth : ℚ) (spotCount : Nat) (hsc : 3 ≤ spotCount) :
    generateSpotsForSpace sqrtQ center tangent trackWidth spotCount = [] ∨
    (((generateSpotsForSpace sqrtQ center tangent trackWidth spotCount).filter
        fun spot => spot.type = SpotType.raceLine).length = 1 ∧
     (∀ spot ∈ generateSpotsForSpace sqrtQ center tangent trackWidth spotCount,
        (spot.spotIndex = 0 ∨ spot.spotIndex = spotCount - 1) →
        spot.type = SpotType.outer ∧ spot.isBlocking = true) ∧
     (∀ spot ∈ generateSpotsForSpace sqrtQ center tangent trackWidth spotCount,
        spot.type ≠ SpotType.raceLine → spot.spotIndex ≠ 0 →
        spot.spotIndex ≠ spotCount - 1 →
        spot.type = SpotType.inner ∧ spot.isBlocking = false)) := by
  have hmid1 : 1 ≤ spotCount / 2 := by omega
  have hmid2 : spotCount / 2 < spotCount - 1 := by omega
  rw [generateSpotsForSpace]
  split
  · exact Or.inl rfl
  · right
    refine ⟨?_, ?_, ?_⟩
    · rw [← List.countP_eq_length_filter, List.countP_map]
      rw [List.countP_congr ?_ ]
      · exact countP_range_eq_one spotCount (spotCount / 2) (by omega)
      · intro i hi
        have hilt := List.mem_range.mp hi
        by_cases h1 : i = spotCount / 2
        · simp only [Function.comp_apply, if_pos h1]
          simp [h1]
        · by_cases h2 : i = 0 ∨ i = spotCount - 1
          · simp only [Function.comp_apply, if_neg h1, if_pos h2]
            simp [h1]
          · simp only [Function.comp_apply, if_neg h1, if_neg h2]
            simp [h1]
    · intro spot hspot hext
      obtain ⟨i, hi, rfl⟩ := List.mem_map.mp hspot
      have hilt := List.mem_range.mp hi
      by_cases h1 : i = spotCount / 2
      · rw [if_pos h1] at hext ⊢
        exfalso
        rcases hext with h | h <;> simp at h <;> omega
      · by_cases h2 : i = 0 ∨ i = spotCount - 1
        · rw [if_neg h1, if_pos h2]
          exact ⟨rfl, rfl⟩
        · rw [if_neg h1, if_neg h2] at hext ⊢
          exfalso
          rcases hext with h | h <;> simp at h <;> exact h2 (by omega)
    · intro spot hspot hrl h0 hlast
      obtain ⟨i, hi, rfl⟩ := List.mem_map.mp hspot
      have hilt := List.mem_range.mp hi
      by_cases h1 : i = spotCount / 2
      · rw [if_pos h1] at hrl
        exact absurd rfl hrl
      · by_cases h2 : i = 0 ∨ i = spotCount - 1
        · rw [if_neg h1, if_pos h2] at h0 hlast
          exfalso
          rcases h2 with h | h
          · exact h0 (by simpa using h)
          · exact hlast (by simpa using h)
        · rw [if_neg h1, if_neg h2]
          exact ⟨rfl, rfl⟩

/-- C5 (amended): for spotCount ≥ 3, every Space produced by
`discretizePathToSpaces` either has an EMPTY spot list — which happens
exactly when the tangent at the sampled position degenerates to zero, the
documented numerical-degeneracy fallback — or carries exactly one race-line
spot, blocking outer spots at the two extreme spot indices, and
non-blocking inner spots everywhere else. -/
theorem discretizePathToSpaces_spots_shape (sqrtQ : ℚ → ℚ)
    (segments : List BezierSegment) (targetSpacesPerLap : Nat)
    (trackWidth : ℚ) (spotCount : Nat) (hsc : 3 ≤ spotCount) (space : Space)
    (hmem : space ∈ discretizePathToSpaces sqrtQ segments targetSpacesPerLap
      trackWidth spotCount) :
    space.spots = [] ∨
    ((space.spots.filter fun spot => spot.type = SpotType.raceLine).length = 1 ∧
     (∀ spot ∈ space.spots,
        (spot.spotIndex = 0 ∨ spot.spotIndex = spotCount - 1) →
        spot.type = SpotType.outer ∧ spot.isBlocking = true) ∧
     (∀ spot ∈ space.spots,
        spot.type ≠ SpotType.raceLine → spot.spotIndex ≠ 0 →
        spot.spotIndex ≠ spotCount - 1 →
        spot.type = SpotType.inner ∧ spot.isBlocking = false)) := by
  rw [discretizePathToSpaces] at hmem
  split at hmem
  · cases hmem
  · obtain ⟨i, _, rfl⟩ := List.mem_map.mp hmem
    exact generateSpotsForSpace_shape sqrtQ _ _ trackWidth spotCount hsc

set_option maxRecDepth 300000 in
/-- C5, witness: the shape theorem applied to the first space discretized
from the out-and-back segment. -/
theorem discretizePathToSpaces_spots_shape_witness :
    (3 : Nat) ≤ 3 ∧
    ((discretizePathToSpaces ratSqrt [outBackSeg] 2 1 3).getD 0 default ∈
      discretizePathToSpaces ratSqrt [outBackSeg] 2 1 3) ∧
    (((discretizePathToSpaces ratSqrt [outBackSeg] 2 1 3).getD 0 default).spots = [] ∨
     ((((discretizePathToSpaces ratSqrt [outBackSeg] 2 1 3).getD 0 default).spots.filter
        fun spot => spot.type = SpotType.raceLine).length = 1 ∧
      (∀ spot ∈ ((discretizePathToSpaces ratSqrt [outBackSeg] 2 1 3).getD 0 default).spots,
        (spot.spotIndex = 0 ∨ spot.spotIndex = 3 - 1) →
        spot.type = SpotType.outer ∧ spot.isBlocking = true) ∧
      (∀ spot ∈ ((discretizePathToSpaces ratSqrt [outBackSeg] 2 1 3).getD 0 default).spots,
        spot.type ≠ SpotType.raceLine → spot.spotIndex ≠ 0 →
        spot.spotIndex ≠ 3 - 1 →
        spot.type = SpotType.inner ∧ spot.isBlocking = false))) := by
  refine ⟨by omega, ?_, ?_⟩
  · decide
  · exact discretizePathToSpaces_spots_shape ratSqrt [outBackSeg] 2 1 3 (by omega) _
      (by decide)

set_option maxRecDepth 200000 in
/-- C5, counterexample to the claim as stated: discretizing the out-and-back
segment into two spaces with trackWidth 1 > 0 and spotCount 3 ≥ 3 produces a
second space whose sampled tangent is exactly zero, so its spot list is
empty and it contains NO race-line spot, not exactly one. -/
theorem discretize_produces_spotless_space :
    ([outBackSeg] : List BezierSegment) ≠ [] ∧ (0 : ℚ) < 1 ∧ (3 : Nat) ≥ 3 ∧
    ((discretizePathToSpaces ratSqrt [outBackSeg] 2 1 3).map
      fun s => (s.spots.filter fun spot => spot.type = SpotType.raceLine).length)
      = [1, 0] := by
  exact ⟨by decide, by decide, by omega, by decide⟩

/-! ### C1 -/

/-- Two segments sharing a point (the wrap-around joint of a closed chain)
always pass the bounding-box overlap test. -/
theorem segmentsIntersect_of_shared (s0 sl : BezierSegment)
    (hx : sl.endPoint.x = s0.startPoint.x)
    (hy : sl.endPoint.y = s0.startPoint.y) :
    segmentsIntersect s0 sl = true := by
  rw [segmentsIntersect]
  simp only [calculateBoundingBox, decide_eq_true_eq, not_or, not_lt]
  refine ⟨?_, ?_, ?_, ?_⟩
  · calc min (min (min sl.startPoint.x sl.cp1.x) sl.cp2.x) sl.endPoint.x
        ≤ sl.endPoint.x := min_le_right _ _
      _ = s0.startPoint.x := hx
      _ ≤ max (max (max s0.startPoint.x s0.cp1.x) s0.cp2.x) s0.endPoint.x :=
        le_trans (le_max_left _ _) (le_trans (le_max_left _ _) (le_max_left _ _))
  · calc min (min (min s0.startPoint.x s0.cp1.x) s0.cp2.x) s0.endPoint.x
        ≤ s0.startPoint.x :=
          le_trans (le_trans (min_le_left _ _) (min_le_left _ _)) (min_le_left _ _)
      _ = sl.endPoint.x := hx.symm
      _ ≤ max (max (max sl.startPoint.x sl.cp1.x) sl.cp2.x) sl.endPoint.x :=
        le_max_right _ _
  · calc min (min (min sl.startPoint.y sl.cp1.y) sl.cp2.y) sl.endPoint.y
        ≤ sl.endPoint.y := min_le_right _ _
      _ = s0.startPoint.y := hy
      _ ≤ max (max (max s0.startPoint.y s0.cp1.y) s0.cp2.y) s0.endPoint.y :=
        le_trans (le_max_left _ _) (le_trans (le_max_left _ _) (le_max_left _ _))
  · calc min (min (min s0.startPoint.y s0.cp1.y) s0.cp2.y) s0.endPoint.y
        ≤ s0.startPoint.y :=
          le_trans (le_trans (min_le_left _ _) (min_le_left _ _)) (min_le_left _ _)
      _ = sl.endPoint.y := hy.symm
      _ ≤ max (max (max sl.startPoint.y sl.cp1.y) sl.cp2.y) sl.endPoint.y :=
        le_max_right _ _

/-- On any closed chain of at least 3 segments the self-intersection check
fires: the first and last segments are at index distance ≥ 2 and share the
wrap-around point, so their bounding boxes overlap. -/
theorem checkForSelfIntersections_of_closed (segments : List BezierSegment)
    (h3 : 3 ≤ segments.length) (s0 sl : BezierSegment)
    (h0 : segments[0]? = some s0)
    (hl : segments[segments.length - 1]? = some sl)
    (hx : sl.endPoint.x = s0.startPoint.x)
    (hy : sl.endPoint.y = s0.startPoint.y) :
    checkForSelfIntersections segments = true := by
  rw [checkForSelfIntersections]
  rw [List.any_eq_true]
  refine ⟨0, List.mem_range.mpr (by omega), ?_⟩
  rw [List.any_eq_true]
  refine ⟨segments.length - 1, List.mem_range.mpr (by omega), ?_⟩
  rw [h0, hl]
  rw [Bool.and_eq_true]
  exact ⟨decide_eq_true (by omega), segmentsIntersect_of_shared s0 sl hx hy⟩

/-- The validator output always contains the self-intersection error on a
track whose chain is closed with at least 3 segments. -/
theorem selfIntersection_error_mem (track : TrackData)
    (h3 : 3 ≤ track.splinePath.segments.length) (s0 sl : BezierSegment)
    (h0 : track.splinePath.segments[0]? = some s0)
    (hl : track.splinePath.segments[track.splinePath.segments.length - 1]? =
      some sl)
    (hx : sl.endPoint.x = s0.startPoint.x)
    (hy : sl.endPoint.y = s0.startPoint.y) :
    "Track has self-intersections" ∈ validateTrackData track := by
  rw [validateTrackData]
  rw [if_pos (checkForSelfIntersections_of_closed _ h3 s0 sl h0 hl hx hy)]
  simp [List.mem_append]

/-- C1 (amended): on EVERY closed chain of at least 3 segments — however
well-formed — the freshly assembled TrackData never validates cleanly: the
conservative bounding-box self-intersection check necessarily fires on the
wrap-around pair of segments (they share the closing point), so the error
list always contains "Track has self-intersections" and is never empty. -/
theorem assembled_track_never_validates (sqrtQ : ℚ → ℚ)
    (segments : List BezierSegment) (targetSpacesPerLap : Nat)
    (trackWidth : ℚ) (spotCount : Nat)
    (curvatureThreshold minCornerSpacing : ℚ) (s0 sl : BezierSegment)
    (h3 : 3 ≤ segments.length) (h0 : segments[0]? = some s0)
    (hl : segments[segments.length - 1]? = some sl)
    (hx : sl.endPoint.x = s0.startPoint.x)
    (hy : sl.endPoint.y = s0.startPoint.y) :
    "Track has self-intersections" ∈
      validateTrackData (assembleTrackData sqrtQ segments targetSpacesPerLap
        trackWidth spotCount curvatureThreshold minCornerSpacing) ∧
    validateTrackData (assembleTrackData sqrtQ segments targetSpacesPerLap
        trackWidth spotCount curvatureThreshold minCornerSpacing) ≠ [] := by
  have hmem := selfIntersection_error_mem
    (assembleTrackData sqrtQ segments targetSpacesPerLap trackWidth spotCount
      curvatureThreshold minCornerSpacing) h3 s0 sl h0 hl hx hy
  exact ⟨hmem, List.ne_nil_of_mem hmem⟩

theorem triSegs_eq : triSegs = [triSeg0, triSeg1, triSeg2] := by decide

/-- The triangle is genuinely non-self-intersecting: any point shared by two
distinct sides is a shared vertex. -/
theorem triSegs_nonSelfIntersecting : straightChainNonSelfIntersecting triSegs := by
  intro i j hij hj p hpi hpj
  rw [triSegs_eq] at hj hpi hpj ⊢
  simp only [List.length_cons, List.length_nil] at hj
  obtain ⟨px, py⟩ := p
  rcases hpi with ⟨ho1, hx1, hy1⟩
  rcases hpj with ⟨ho2, hx2, hy2⟩
  interval_cases j
  · exact absurd hij (by omega)
  · interval_cases i
    · -- sides 0 and 1, shared vertex (4, 0)
      left
      simp only [triSeg0, triSeg1, bp, orient, toPoint, betweenQ,
        List.getD_cons_zero, List.getD_cons_succ] at ho1 ho2 hx1 hy1 hx2 hy2 ⊢
      have hpy : py = 0 := by rcases hy1 with ⟨h, h2⟩ | ⟨h, h2⟩ <;> linarith
      have hpx : px = 4 := by linarith
      simp [Point.mk.injEq, hpx, hpy]
  · interval_cases i
    · -- sides 0 and 2, shared vertex (0, 0)
      right
      simp only [triSeg0, triSeg2, bp, orient, toPoint, betweenQ,
        List.getD_cons_zero, List.getD_cons_succ] at ho1 ho2 hx1 hy1 hx2 hy2 ⊢
      have hpy : py = 0 := by rcases hy1 with ⟨h, h2⟩ | ⟨h, h2⟩ <;> linarith
      have hpx : px = 0 := by linarith
      simp [Point.mk.injEq, hpx, hpy]
    · -- sides 1 and 2, shared vertex (0, 3)
      left
      simp only [triSeg1, triSeg2, bp, orient, toPoint, betweenQ,
        List.getD_cons_zero, List.getD_cons_succ] at ho1 ho2 hx1 hy1 hx2 hy2 ⊢
      have hpx : px = 0 := by linarith
      have hpy : py = 3 := by linarith
      simp [Point.mk.injEq, hpx, hpy]

/-- C1, witness: the amended theorem applied to the concrete triangle with
the editor's default discretization parameters. -/
theorem assembled_track_never_validates_witness :
    3 ≤ triSegs.length ∧ triSegs[0]? = some triSeg0 ∧
    triSegs[triSegs.length - 1]? = some triSeg2 ∧
    triSeg2.endPoint.x = triSeg0.startPoint.x ∧
    triSeg2.endPoint.y = triSeg0.startPoint.y ∧
    "Track has self-intersections" ∈
      validateTrackData (assembleTrackData ratSqrt triSegs 3 100 5 (1 / 10) 3) ∧
    validateTrackData (assembleTrackData ratSqrt triSegs 3 100 5 (1 / 10) 3) ≠ [] := by
  have h := assembled_track_never_validates ratSqrt triSegs 3 100 5 (1 / 10) 3
    triSeg0 triSeg2 (by decide) (by decide) (by decide) (by decide) (by decide)
  exact ⟨by decide, by decide, by decide, by decide, by decide, h.1, h.2⟩

/-- C1, counterexample to the claim as stated: the closed, genuinely
non-self-intersecting 3-segment triangle, freshly discretized and
corner-suggested with default metadata, still fails validation — the error
list is not empty. -/
theorem valid_closed_triangle_fails_validation :
    chainClosed triSegs ∧
    straightChainNonSelfIntersecting triSegs ∧
    triSegs.length = 3 ∧
    (createSplinePathFromSegments triSegs "#3182ce" 3 true).closed = true ∧
    createDefaultTrackMetadata.startFinishSpaceIndex = 0 ∧
    validateTrackData (assembleTrackData ratSqrt triSegs 3 100 5 (1 / 10) 3) ≠ [] := by
  refine ⟨by unfold chainClosed; decide, triSegs_nonSelfIntersecting, by decide,
    rfl, rfl, ?_⟩
  exact List.ne_nil_of_mem (selfIntersection_error_mem _ (by decide) triSeg0
    triSeg2 (by decide) (by decide) (by decide) (by decide))

end HeatMapCreator
